import Mathlib

/-!
Shallow embedding of the commcomm-rs Arduino firmware core
(`src/unnamed/part_000`, the thresholds/calibration variant, and
`src/src/arduino/program.ino`, the per-sensor-activation variant),
together with theorems settling the frozen claims about the
hysteresis detector, the bounded event queue, the command dispatcher,
the calibration state machine and the main loop.

Machine integers are modelled as `Nat`/`Int`; `uint8` values are `Nat`s
that the code keeps in `[0, 255]`; C integer division is `Int.tdiv`
(truncation toward zero); undefined behaviour (division by zero in
Arduino `map`, `strcmp` on a null pointer) is modelled as `Option.none`.
-/

set_option maxRecDepth 4000

namespace Commcomm

/-- `struct SensorThresholds { uint8_t trigger; uint8_t release; }`. -/
structure SensorThresholds where
  trigger : Nat
  release : Nat
  deriving Repr, DecidableEq

/-- `struct SensorCalibration { int low; int high; }`. -/
structure SensorCalibration where
  low : Int
  high : Int
  deriving Repr, DecidableEq

/-- `struct SensorState { bool flexed; int raw; uint8_t mapped; }`. -/
structure SensorState where
  flexed : Bool
  raw : Int
  mapped : Nat
  deriving Repr, DecidableEq

/-- `enum class Mode { COMMAND, CALIBRATION_FLEXED, CALIBRATION_EXTENDED, CALIBRATION_FINAL }`. -/
inductive Mode where
  | COMMAND
  | CALIBRATION_FLEXED
  | CALIBRATION_EXTENDED
  | CALIBRATION_FINAL
  deriving Repr, DecidableEq

/-- `enum class EventType { SENSOR_FLEXED, SENSOR_EXTENDED, MODE_CHANGED }`. -/
inductive EventType where
  | SENSOR_FLEXED
  | SENSOR_EXTENDED
  | MODE_CHANGED
  deriving Repr, DecidableEq

/-- `struct Event { EventType type; union { uint8_t sensor_id; Mode mode; }; }`,
modelled as a sum so the union member written is the one recorded. -/
inductive Event where
  | sensorFlexed (sensor_id : Nat)
  | sensorExtended (sensor_id : Nat)
  | modeChanged (mode : Mode)
  deriving Repr, DecidableEq

/-- The `type` tag of an `Event`. -/
def Event.type : Event → EventType
  | .sensorFlexed _ => .SENSOR_FLEXED
  | .sensorExtended _ => .SENSOR_EXTENDED
  | .modeChanged _ => .MODE_CHANGED

/-- Reading `event.sensor_id`; for a `MODE_CHANGED` event this reads the
union member through the other leg (the byte holding the mode's value). -/
def Event.sensor_id : Event → Nat
  | .sensorFlexed id => id
  | .sensorExtended id => id
  | .modeChanged m => match m with
      | .COMMAND => 0
      | .CALIBRATION_FLEXED => 1
      | .CALIBRATION_EXTENDED => 2
      | .CALIBRATION_FINAL => 3

/-- `enum class CommandResult` with the source's explicit numeric values. -/
inductive CommandResult where
  | SUCCESS
  | SUCCESS_NULL
  | ERROR_JSON_PARSE
  | ERROR_JSON_ALLOC
  | ERROR_REQUEST_TOO_LONG
  | ERROR_UNKNOWN_COMMAND
  | ERROR_BUFFER_TOO_SMALL
  | ERROR_INVALID_PARAM
  deriving Repr, DecidableEq

/-- `static_cast<int>(result)`: the enum's underlying values
(`SUCCESS = -2, SUCCESS_NULL = -1, ERROR_JSON_PARSE = 0, ...`). -/
def CommandResult.toInt : CommandResult → Int
  | .SUCCESS => -2
  | .SUCCESS_NULL => -1
  | .ERROR_JSON_PARSE => 0
  | .ERROR_JSON_ALLOC => 1
  | .ERROR_REQUEST_TOO_LONG => 2
  | .ERROR_UNKNOWN_COMMAND => 3
  | .ERROR_BUFFER_TOO_SMALL => 4
  | .ERROR_INVALID_PARAM => 5

/-- `static const size_t event_queue_size = 10;` -/
def event_queue_size : Nat := 10

/-- `static const size_t message_buffer_size = 256;` -/
def message_buffer_size : Nat := 256

/-!  ## Event queue (`RingBufCPP<Event, event_queue_size>`)

The queue is modelled as a list, oldest element first: `add` appends at
the back and fails when `event_queue_size` elements are held, `pull`
removes the front.  -/

/-- `events.pull(&event)`: remove and return the oldest element, or fail
when the buffer is empty. -/
def pull (q : List Event) : Option (Event × List Event) :=
  match q with
  | [] => none
  | e :: rest => some (e, rest)

/-- The producer-side push loop from `process_inputs`:
`while (!events.add(event)) { Event dummy; events.pull(&dummy); }` —
while the buffer is at capacity, evict the oldest element, then insert.
(The empty-but-full branch is unreachable since the capacity is 10.) -/
def pushEvict (q : List Event) (e : Event) : List Event :=
  if q.length < event_queue_size then q ++ [e]
  else
    match q with
    | [] => [e]
    | _ :: rest => pushEvict rest e

/-!  ## Hysteresis detector (`process_inputs`, per sensor) -/

/-- `constrain(x, a, b)` (Arduino macro): clamp `x` to `[a, b]`. -/
def constrain (x a b : Int) : Int :=
  if x < a then a else if x > b then b else x

/-- Arduino `map(x, in_min, in_max, out_min, out_max)` =
`(x - in_min) * (out_max - out_min) / (in_max - in_min) + out_min` with
C `long` division (truncation toward zero); when `in_max == in_min` the
division is by zero, which is undefined behaviour (`none`). -/
def cmap (x in_min in_max out_min out_max : Int) : Option Int :=
  if in_max = in_min then none
  else some (Int.tdiv ((x - in_min) * (out_max - out_min)) (in_max - in_min) + out_min)

/-- The threshold comparison of `process_inputs` (lines 244–252 of
`src/unnamed/part_000`), on the stored normalized value: if not flexed
and `mapped > trigger`, emit `SENSOR_FLEXED` and set `flexed = true`;
else if flexed and `mapped < release`, emit `SENSOR_EXTENDED` and set
`flexed = false`; otherwise no event.  Returns the new flag and the
emitted event type, if any. -/
def detect (th : SensorThresholds) (flexed : Bool) (mapped : Nat) : Bool × Option EventType :=
  if mapped > th.trigger && !flexed then (true, some .SENSOR_FLEXED)
  else if mapped < th.release && flexed then (false, some .SENSOR_EXTENDED)
  else (flexed, none)

/-- Feeding a sequence of normalized values to one sensor's detector:
final flag and the list of emitted event types, in order. -/
def runDetect (th : SensorThresholds) (flexed : Bool) : List Nat → Bool × List EventType
  | [] => (flexed, [])
  | v :: vs =>
    match detect th flexed v with
    | (b, none) => runDetect th b vs
    | (b, some e) =>
      let (b', es) := runDetect th b vs
      (b', e :: es)

/-- One whole-sensor step of `process_inputs` (lines 239–252): store the
raw sample, normalize it with `constrain(map(raw, low, high, 0, 255), 0, 255)`
and run the threshold comparison.  `none` when the normalization divides
by zero (`low == high`). -/
def sensorStep (id : Nat) (th : SensorThresholds) (cal : SensorCalibration)
    (st : SensorState) (raw : Int) : Option (SensorState × Option Event) :=
  match cmap raw cal.low cal.high 0 255 with
  | none => none
  | some m =>
    let mapped := (constrain m 0 255).toNat
    match detect th st.flexed mapped with
    | (b, none) => some ({ flexed := b, raw := raw, mapped := mapped }, none)
    | (b, some .SENSOR_FLEXED) =>
        some ({ flexed := b, raw := raw, mapped := mapped }, some (.sensorFlexed id))
    | (b, some _) =>
        some ({ flexed := b, raw := raw, mapped := mapped }, some (.sensorExtended id))

section DetectorLemmas

/-- Not flexed and the value does not exceed `trigger`: no event. -/
theorem detect_false_le (th : SensorThresholds) (v : Nat) (hv : v ≤ th.trigger) :
    detect th false v = (false, none) := by
  simp [detect, Nat.not_lt.mpr hv]

/-- Flexed and the value stays at or above `release`: no event. -/
theorem detect_true_ge (th : SensorThresholds) (v : Nat) (hv : th.release ≤ v) :
    detect th true v = (true, none) := by
  simp [detect, Nat.not_lt.mpr hv]

/-- Not flexed and the value exceeds `trigger`: `SENSOR_FLEXED` is emitted. -/
theorem detect_flex (th : SensorThresholds) (v : Nat) (hv : th.trigger < v) :
    detect th false v = (true, some .SENSOR_FLEXED) := by
  simp [detect, hv]

/-- Flexed and the value drops below `release`: `SENSOR_EXTENDED` is emitted. -/
theorem detect_ext (th : SensorThresholds) (v : Nat) (hv : v < th.release) :
    detect th true v = (false, some .SENSOR_EXTENDED) := by
  simp [detect, hv]

/-- A value strictly inside the dead zone emits nothing and keeps the flag. -/
theorem detect_dead_zone (th : SensorThresholds) (b : Bool) (v : Nat)
    (h1 : th.release < v) (h2 : v < th.trigger) : detect th b v = (b, none) := by
  cases b with
  | false => exact detect_false_le th v (Nat.le_of_lt h2)
  | true => exact detect_true_ge th v (Nat.le_of_lt h1)

/-- While not flexed, values that do not exceed `trigger` emit nothing. -/
theorem runDetect_below_trigger (th : SensorThresholds) (vs : List Nat)
    (h : ∀ v ∈ vs, v ≤ th.trigger) : runDetect th false vs = (false, []) := by
  induction vs with
  | nil => rfl
  | cons v vs ih =>
    rw [runDetect, detect_false_le th v (h v (List.mem_cons_self v vs))]
    exact ih fun w hw => h w (List.mem_cons_of_mem v hw)

/-- While flexed, values that stay at or above `release` emit nothing. -/
theorem runDetect_above_release (th : SensorThresholds) (vs : List Nat)
    (h : ∀ v ∈ vs, th.release ≤ v) : runDetect th true vs = (true, []) := by
  induction vs with
  | nil => rfl
  | cons v vs ih =>
    rw [runDetect, detect_true_ge th v (h v (List.mem_cons_self v vs))]
    exact ih fun w hw => h w (List.mem_cons_of_mem v hw)

end DetectorLemmas

section DetectorRun

/-- `runDetect` over an appended sequence runs the two halves in order. -/
theorem runDetect_append (th : SensorThresholds) (b : Bool) (xs ys : List Nat) :
    runDetect th b (xs ++ ys) =
      ((runDetect th (runDetect th b xs).1 ys).1,
        (runDetect th b xs).2 ++ (runDetect th (runDetect th b xs).1 ys).2) := by
  induction xs generalizing b with
  | nil => simp [runDetect]
  | cons v vs ih =>
    simp only [List.cons_append, runDetect]
    rcases hd : detect th b v with ⟨b1, e⟩
    rcases h1 : runDetect th b1 vs with ⟨b2, es⟩
    have h3 := ih b1
    rw [h1] at h3
    simp only at h3
    cases e with
    | none => simp [h3, h1]
    | some ev => simp [h3, h1]

/-- Values staying strictly inside the dead zone emit nothing and keep the
flag, from either starting state. -/
theorem runDetect_dead_zone (th : SensorThresholds) (b : Bool) (vs : List Nat)
    (h : ∀ v ∈ vs, th.release < v ∧ v < th.trigger) : runDetect th b vs = (b, []) := by
  induction vs with
  | nil => rfl
  | cons v vs ih =>
    have hv := h v (List.mem_cons_self v vs)
    rw [runDetect, detect_dead_zone th b v hv.1 hv.2]
    exact ih fun w hw => h w (List.mem_cons_of_mem v hw)

/-- Unfolding `runDetect` at a value that emits nothing. -/
theorem runDetect_cons_none (th : SensorThresholds) (b b' : Bool) (v : Nat) (vs : List Nat)
    (h : detect th b v = (b', none)) :
    runDetect th b (v :: vs) = runDetect th b' vs := by
  simp [runDetect, h]

/-- Unfolding `runDetect` at a value that emits an event. -/
theorem runDetect_cons_some (th : SensorThresholds) (b b' : Bool) (v : Nat) (vs : List Nat)
    (e : EventType) (h : detect th b v = (b', some e)) :
    runDetect th b (v :: vs) =
      ((runDetect th b' vs).1, e :: (runDetect th b' vs).2) := by
  rw [runDetect, h]

end DetectorRun

section QueueLemmas

/-- Unfolding of the eviction loop for a queue within capacity: below
capacity the event is appended; at capacity the oldest element is evicted
first, then the event appended. -/
theorem pushEvict_eq (q : List Event) (e : Event) (h : q.length ≤ event_queue_size) :
    pushEvict q e =
      if q.length < event_queue_size then q ++ [e] else q.tail ++ [e] := by
  by_cases hlt : q.length < event_queue_size
  · rw [pushEvict.eq_def, if_pos hlt, if_pos hlt]
  · rw [pushEvict.eq_def, if_neg hlt, if_neg hlt]
    cases q with
    | nil => simp [event_queue_size] at hlt
    | cons x xs =>
      simp only [List.tail_cons]
      rw [pushEvict.eq_def, if_pos]
      simp only [List.length_cons, event_queue_size] at *
      omega

/-- The eviction loop keeps the queue within capacity. -/
theorem pushEvict_length_le (q : List Event) (e : Event) (h : q.length ≤ event_queue_size) :
    (pushEvict q e).length ≤ event_queue_size := by
  rw [pushEvict_eq q e h]
  by_cases hlt : q.length < event_queue_size
  · simp only [if_pos hlt, List.length_append, List.length_cons, List.length_nil]
    omega
  · rw [if_neg hlt]
    simp only [List.length_append, List.length_tail, List.length_cons,
      List.length_nil, event_queue_size] at *
    omega

/-- Folding the eviction push over any event sequence, from any queue within
capacity, leaves exactly the suffix of `queue ++ pushed` that fits. -/
theorem foldl_pushEvict (es : List Event) :
    ∀ q : List Event, q.length ≤ event_queue_size →
      List.foldl pushEvict q es =
        (q ++ es).drop (q.length + es.length - event_queue_size) := by
  induction es with
  | nil =>
    intro q hq
    simp only [List.foldl_nil, List.append_nil, List.length_nil, Nat.add_zero]
    rw [Nat.sub_eq_zero_of_le hq, List.drop_zero]
  | cons e es ih =>
    intro q hq
    rw [List.foldl_cons]
    by_cases hlt : q.length < event_queue_size
    · have hpe : pushEvict q e = q ++ [e] := by rw [pushEvict_eq q e hq, if_pos hlt]
      have hlen : (q ++ [e]).length ≤ event_queue_size := by
        simp only [List.length_append, List.length_cons, List.length_nil]
        omega
      rw [hpe, ih (q ++ [e]) hlen, List.append_assoc]
      simp only [List.singleton_append, List.length_append, List.length_cons,
        List.length_nil]
      congr 1
      omega
    · have hfull : q.length = event_queue_size := by omega
      have h10 : q.length = 10 := by simpa [event_queue_size] using hfull
      have hpe : pushEvict q e = q.tail ++ [e] := by rw [pushEvict_eq q e hq, if_neg hlt]
      have hlen : (q.tail ++ [e]).length ≤ event_queue_size := by
        simp only [List.length_append, List.length_tail, List.length_cons, List.length_nil,
          event_queue_size]
        omega
      rw [hpe, ih (q.tail ++ [e]) hlen, List.append_assoc]
      have hidx1 : (q.tail ++ [e]).length + es.length - event_queue_size = es.length := by
        simp only [List.length_append, List.length_tail, List.length_cons, List.length_nil,
          event_queue_size]
        omega
      have hidx2 : q.length + (e :: es).length - event_queue_size = es.length + 1 := by
        simp only [List.length_cons, event_queue_size]
        omega
      rw [hidx1, hidx2]
      cases q with
      | nil => simp [event_queue_size] at hfull
      | cons x xs =>
        simp only [List.tail_cons, List.singleton_append, List.cons_append,
          List.nil_append, List.drop_succ_cons]

end QueueLemmas

/-!  ## Whole-device state (`src/unnamed/part_000` statics) -/

/-- The firmware's static mutable state: `mode`, the ISR's static
`LAST_TIME`, the event queue, and the three per-sensor arrays, plus the
EEPROM contents (non-volatile storage). -/
structure Sys where
  mode : Mode
  lastTime : Nat
  events : List Event
  sensor_state : List SensorState
  sensor_thresholds : List SensorThresholds
  sensor_calibration : List SensorCalibration
  eeprom : List SensorCalibration
  deriving Repr, DecidableEq

/-- State after `setup()`: C++ statics are zero-initialized, `mode` is set
to `COMMAND` and `EEPROM.get(0, sensor_calibration)` loads the stored
calibration. -/
def Sys.init (cal0 : List SensorCalibration) : Sys where
  mode := .COMMAND
  lastTime := 0
  events := []
  sensor_state := List.replicate cal0.length { flexed := false, raw := 0, mapped := 0 }
  sensor_thresholds := List.replicate cal0.length { trigger := 0, release := 0 }
  sensor_calibration := cal0
  eeprom := cal0

/-!  ## Command dispatcher (`process_request`)

JSON parsing and node allocation are done by the ArduinoJson library,
which is outside the repository; its outcome is a parameter: a request is
either a parse failure or a parsed object, with the getters' results
(`get<uint8_t>`/`get<bool>` return `0`/`false` for a missing or
mistyped field, `get<const char *>` returns a null pointer).  A single
`allocOk` flag models whether `createObject`/`createArray`/`set`/`add`
succeed in the remaining `StaticJsonBuffer` space.  -/

/-- Results of the field getters used by `process_request`. -/
structure RequestFields where
  id : Nat
  trigger : Nat
  release : Nat
  raw : Bool
  deriving Repr, DecidableEq

/-- A request line after `json_buffer.parseObject(buffer)`: failed, or an
object whose `command` member is a string or absent (null pointer). -/
inductive Request where
  | parseFail
  | parsed (command : Option String) (fields : RequestFields)

/-- A serialized response body as `printTo` would produce: a one-member
object `\x7b"key":id\x7d` or an array of integers. -/
inductive Resp where
  | eventObj (key : String) (id : Nat)
  | valuesArr (vals : List Int)
  deriving Repr, DecidableEq

/-- Number of decimal digits of a natural number. -/
def decimalLen (n : Nat) : Nat :=
  if n < 10 then 1 else 1 + decimalLen (n / 10)
termination_by n
decreasing_by
  rename_i h
  omega

/-- Printed length of an integer (a minus sign plus digits when negative). -/
def intLen (i : Int) : Nat :=
  if i < 0 then 1 + decimalLen (-i).toNat else decimalLen i.toNat

/-- `measureLength()` of a response body. -/
def respLen : Resp → Nat
  | .eventObj key id => 2 + (key.length + 2) + 1 + decimalLen id
  | .valuesArr [] => 2
  | .valuesArr (v :: vs) => 2 + intLen v + ((vs.map intLen).sum + vs.length)

/-- `process_request` of `src/unnamed/part_000` (lines 145–231), on the
shared state.  The build is taken without the `DEVICEINFO_*` defines, so
`device_info` answers the null token.  `none` models undefined behaviour:
when the parsed object has no `command` member, `get<const char *>`
returns a null pointer and `strcmp(command, "device_info")` dereferences
it.  Returns the `CommandResult`, the state after the call, and the
response body left in the buffer, if any. -/
def process_request (allocOk : Bool) (req : Request) (s : Sys) :
    Option (CommandResult × Sys × Option Resp) :=
  match req with
  | .parseFail => some (.ERROR_JSON_PARSE, s, none)
  | .parsed none _ => none
  | .parsed (some cmd) f =>
    if cmd = "device_info" then
      some (.SUCCESS_NULL, s, none)
    else if cmd = "poll_event" then
      match pull s.events with
      | none => some (.SUCCESS_NULL, s, none)
      | some (e, rest) =>
        if allocOk = false then
          some (.ERROR_JSON_ALLOC, { s with events := rest }, none)
        else
          let key := if e.type = EventType.SENSOR_FLEXED then "flexed" else "extended"
          if respLen (.eventObj key e.sensor_id) > message_buffer_size - 1 then
            some (.ERROR_BUFFER_TOO_SMALL, { s with events := rest }, none)
          else
            some (.SUCCESS, { s with events := rest }, some (.eventObj key e.sensor_id))
    else if cmd = "set_thresholds" then
      if s.sensor_thresholds.length ≤ f.id then
        some (.ERROR_INVALID_PARAM, s, none)
      else
        some (.SUCCESS_NULL,
          { s with sensor_thresholds :=
              s.sensor_thresholds.set f.id { trigger := f.trigger, release := f.release } },
          none)
    else if cmd = "read_values" then
      if allocOk = false then
        some (.ERROR_JSON_ALLOC, s, none)
      else
        let vals := s.sensor_state.map fun st => if f.raw then st.raw else (st.mapped : Int)
        if respLen (.valuesArr vals) > message_buffer_size - 1 then
          some (.ERROR_BUFFER_TOO_SMALL, s, none)
        else
          some (.SUCCESS, s, some (.valuesArr vals))
    else
      some (.ERROR_UNKNOWN_COMMAND, s, none)

/-!  ## `process_inputs` over all sensors -/

/-- The sensor loop of `process_inputs` (lines 233–262), walking the
threshold, calibration, state and raw-sample arrays in lockstep from
sensor `id` and pushing each detected event as it is produced.  Returns
the new sensor states, the queue, and the pushed events in order; `none`
when a sensor's normalization divides by zero. -/
def processInputsAux : Nat → List SensorThresholds → List SensorCalibration →
    List SensorState → List Int → List Event →
    Option (List SensorState × List Event × List Event)
  | _, [], [], [], [], q => some ([], q, [])
  | id, th :: ths, cal :: cals, st :: sts, raw :: raws, q =>
    match sensorStep id th cal st raw with
    | none => none
    | some (st', ev) =>
      let q' := match ev with
        | none => q
        | some e => pushEvict q e
      match processInputsAux (id + 1) ths cals sts raws q' with
      | none => none
      | some (sts', q'', tr) => some (st' :: sts', q'', ev.toList ++ tr)
  | _, _, _, _, _, _ => none

/-- `process_inputs()` on the whole state, with the analog samples of this
tick given as a list; also returns the events pushed during the call. -/
def process_inputs (raws : List Int) (s : Sys) : Option (Sys × List Event) :=
  match processInputsAux 0 s.sensor_thresholds s.sensor_calibration
      s.sensor_state raws s.events with
  | none => none
  | some (sts, q, tr) => some ({ s with sensor_state := sts, events := q }, tr)

/-!  ## Calibration state machine -/

/-- `unsigned long` subtraction `a - b` (32-bit wraparound). -/
def u32sub (a b : Nat) : Nat := (a % 2 ^ 32 + 2 ^ 32 - b % 2 ^ 32) % 2 ^ 32

/-- `calibration_isr()` (lines 264–294): the trigger handler, given the
current mode, the static `LAST_TIME` and `millis()`.  In `COMMAND` mode a
second activation within 1000 ms enters `CALIBRATION_FLEXED` (the
`MODE_CHANGED` enqueue is commented out in the source); a first or stale
activation only records the timestamp.  Each further activation advances
the calibration phase; in `CALIBRATION_FINAL` the handler does nothing. -/
def calibration_isr (m : Mode) (lastTime time : Nat) : Mode × Nat :=
  match m with
  | .COMMAND =>
    if lastTime ≠ 0 && u32sub time lastTime < 1000 then (.CALIBRATION_FLEXED, time)
    else (.COMMAND, time)
  | .CALIBRATION_FLEXED => (.CALIBRATION_EXTENDED, lastTime)
  | .CALIBRATION_EXTENDED => (.CALIBRATION_FINAL, lastTime)
  | .CALIBRATION_FINAL => (.CALIBRATION_FINAL, lastTime)

/-- The trigger handler acting on the whole state. -/
def isrStep (time : Nat) (s : Sys) : Sys :=
  { s with mode := (calibration_isr s.mode s.lastTime time).1,
           lastTime := (calibration_isr s.mode s.lastTime time).2 }

/-- The `loop()` calibration branches (lines 316–354): in
`CALIBRATION_FLEXED` each sensor's `high` is overwritten with its current
raw sample, in `CALIBRATION_EXTENDED` its `low`; in `CALIBRATION_FINAL`,
after the blink cycles, `EEPROM.put(0, sensor_calibration)` persists the
calibration and the mode returns to `COMMAND` with no external input. -/
def loopCalStep (raws : List Int) (s : Sys) : Sys :=
  match s.mode with
  | .CALIBRATION_FLEXED =>
    { s with sensor_calibration :=
        List.zipWith (fun cal r => { cal with high := r }) s.sensor_calibration raws }
  | .CALIBRATION_EXTENDED =>
    { s with sensor_calibration :=
        List.zipWith (fun cal r => { cal with low := r }) s.sensor_calibration raws }
  | .CALIBRATION_FINAL =>
    { s with eeprom := s.sensor_calibration, mode := .COMMAND }
  | .COMMAND => s

/-!  ## Main loop serial handling -/

/-- One response line written by `loop()`: the serialized body on
`SUCCESS`, the `null` token on `SUCCESS_NULL`, or the numeric result. -/
inductive OutLine where
  | body (r : Resp)
  | nullTok
  | code (n : Int)
  deriving Repr, DecidableEq

/-- `Serial.readBytesUntil('\n', buffer, maxLen)`: read characters until
the terminator (consumed, not stored) or until `maxLen` characters are
stored; returns the stored characters and the remaining stream. -/
def readBytesUntil : List Char → Nat → List Char × List Char
  | [], _ => ([], [])
  | c :: cs, n =>
    if n = 0 then ([], c :: cs)
    else if c = '\n' then ([], cs)
    else
      let (sto, rem) := readBytesUntil cs (n - 1)
      (c :: sto, rem)

/-- One `loop()` iteration of `src/unnamed/part_000` in `COMMAND` mode
(lines 355–393): if the transport is not connected, break (nothing is
reset); otherwise run `process_inputs`, and if input is available read one
line into the 256-byte buffer — a read that fills the buffer rejects the
line with `ERROR_REQUEST_TOO_LONG` and flushes the input — else dispatch
it and print the response.  The JSON parse of the received bytes is the
library's, passed in as `parse`.  Returns the new state, the printed line,
and the unconsumed input. -/
def serialTick (connected : Bool) (parse : List Char → Request) (allocOk : Bool)
    (raws : List Int) (input : List Char) (s : Sys) :
    Option (Sys × Option OutLine × List Char) :=
  if connected = false then some (s, none, input)
  else
    match process_inputs raws s with
    | none => none
    | some (s1, _) =>
      if input.length = 0 then some (s1, none, input)
      else
        let (stored, rest) := readBytesUntil input message_buffer_size
        if message_buffer_size ≤ stored.length then
          some (s1, some (.code CommandResult.ERROR_REQUEST_TOO_LONG.toInt), [])
        else
          match process_request allocOk (parse stored) s1 with
          | none => none
          | some (r, s2, resp) =>
            let out : OutLine :=
              match r, resp with
              | .SUCCESS, some rp => .body rp
              | .SUCCESS_NULL, _ => .nullTok
              | _, _ => .code r.toInt
            some (s2, some out, rest)

/-!  ## The reconnect handler of `src/src/arduino/program.ino`

The per-sensor-activation variant's `loop()` (lines 248–261) detects a
dropped connection, busy-waits for it to return, and then drains the
event queue and resets every sensor's state and configuration. -/

/-- `struct SensorConfig` of `program.ino`. -/
structure SensorConfig where
  active : Bool
  min : Int
  max : Int
  low : Nat
  high : Nat
  deriving Repr, DecidableEq

/-- `program.ino`'s `struct SensorState { bool flexed; int raw; }`. -/
structure SensorStateA where
  flexed : Bool
  raw : Int
  deriving Repr, DecidableEq

/-- `Event dummy; while (events.pull(&dummy)) {}`: drain the queue. -/
def drainAll (q : List Event) : List Event :=
  match hp : pull q with
  | none => q
  | some (_, q') => drainAll q'
termination_by q.length
decreasing_by
  cases q with
  | nil => simp [pull] at hp
  | cons e rest =>
    simp only [pull, Option.some.injEq, Prod.mk.injEq] at hp
    simp [← hp.2]

/-- The reconnect block of `program.ino`'s `loop()`: drain the events and,
for every sensor, set its state to `{false, 0}` and deactivate it. -/
def reconnect_reset (q : List Event) (sts : List SensorStateA)
    (cfgs : List SensorConfig) :
    List Event × List SensorStateA × List SensorConfig :=
  (drainAll q,
   sts.map fun _ => { flexed := false, raw := 0 },
   cfgs.map fun c => { c with active := false })

/-- C1: for a sensor with `release < trigger` whose previous state is
not-flexed, a normalized-value sequence that rises above `trigger` once and
later falls below `release` once (staying at or below `trigger` before the
rise and after the fall, and at or above `release` in between) emits exactly
one `SENSOR_FLEXED` followed by exactly one `SENSOR_EXTENDED`; and any
sequence of values strictly between `release` and `trigger` emits no event
and leaves the flexed state unchanged. -/
theorem claim_C1_hysteresis (th : SensorThresholds) (hrt : th.release < th.trigger)
    (pre mid post : List Nat) (a b : Nat)
    (hpre : ∀ v ∈ pre, v ≤ th.trigger) (ha : th.trigger < a)
    (hmid : ∀ v ∈ mid, th.release ≤ v) (hb : b < th.release)
    (hpost : ∀ v ∈ post, v ≤ th.trigger) :
    runDetect th false (pre ++ a :: (mid ++ b :: post)) =
      (false, [.SENSOR_FLEXED, .SENSOR_EXTENDED]) ∧
    ∀ (b0 : Bool) (vs : List Nat), (∀ v ∈ vs, th.release < v ∧ v < th.trigger) →
      runDetect th b0 vs = (b0, []) := by
  constructor
  · rw [runDetect_append, runDetect_below_trigger th pre hpre]
    simp only [List.nil_append]
    rw [runDetect_cons_some th false true a (mid ++ b :: post) _ (detect_flex th a ha),
      runDetect_append, runDetect_above_release th mid hmid]
    simp only [List.nil_append]
    rw [runDetect_cons_some th true false b post _ (detect_ext th b hb),
      runDetect_below_trigger th post hpost]
  · exact fun b0 vs hvs => runDetect_dead_zone th b0 vs hvs

/-- Witness for C1 at the spec's example: `trigger = 200`, `release = 50`,
normalized sequence `[10, 210, 210, 40, 10]`. -/
theorem claim_C1_hysteresis_witness :
    runDetect ⟨200, 50⟩ false ([10] ++ 210 :: ([210] ++ 40 :: [10])) =
      (false, [.SENSOR_FLEXED, .SENSOR_EXTENDED]) ∧
    runDetect ⟨200, 50⟩ true [60, 199, 51] = (true, []) := by
  have h := claim_C1_hysteresis ⟨200, 50⟩ (by decide) [10] [210] [10] 210 40
    (by decide) (by decide) (by decide) (by decide) (by decide)
  exact ⟨h.1, h.2 true [60, 199, 51] (by decide)⟩

/-- C2: every push to the event queue succeeds (the eviction loop is total
and keeps the queue within capacity, evicting the oldest element when full),
and after any push sequence of length at least `event_queue_size = 10`,
starting from any queue within capacity, the queue holds exactly the last
10 pushed events in push order. -/
theorem claim_C2_event_queue (es : List Event) (q : List Event)
    (hq : q.length ≤ event_queue_size) (hlen : event_queue_size ≤ es.length) :
    List.foldl pushEvict q es = es.drop (es.length - event_queue_size) ∧
    (List.foldl pushEvict q es).length = event_queue_size := by
  have heq : List.foldl pushEvict q es =
      (q ++ es).drop (q.length + es.length - event_queue_size) :=
    foldl_pushEvict es q hq
  have hidx : q.length + es.length - event_queue_size =
      q.length + (es.length - event_queue_size) := by omega
  have hdrop : List.foldl pushEvict q es = es.drop (es.length - event_queue_size) := by
    rw [heq, hidx, List.drop_append]
  refine ⟨hdrop, ?_⟩
  rw [hdrop, List.length_drop]
  omega

/-- Witness for C2: pushing 12 numbered events into the empty queue keeps
exactly the last 10 in order. -/
theorem claim_C2_event_queue_witness :
    List.foldl pushEvict []
        ((List.range 12).map Event.sensorFlexed) =
      ((List.range 12).map Event.sensorFlexed).drop 2 ∧
    (List.foldl pushEvict []
        ((List.range 12).map Event.sensorFlexed)).length = event_queue_size := by
  have h := claim_C2_event_queue ((List.range 12).map Event.sensorFlexed) []
    (by decide) (by simp [event_queue_size])
  simpa using h

section DispatcherLemmas

/-- A number below 1000 prints with at most three digits. -/
theorem decimalLen_le_three (n : Nat) (h : n < 1000) : decimalLen n ≤ 3 := by
  rw [decimalLen]
  by_cases h1 : n < 10
  · rw [if_pos h1]; omega
  · rw [if_neg h1, decimalLen]
    by_cases h2 : n / 10 < 10
    · rw [if_pos h2]; omega
    · rw [if_neg h2, decimalLen, if_pos (by omega)]

/-- The parsed form of a `poll_event` request (no further fields, so the
getters return their defaults). -/
def pollReq : Request :=
  .parsed (some "poll_event") { id := 0, trigger := 0, release := 0, raw := false }

end DispatcherLemmas

/-- C3: the dispatcher is not atomic and can hit undefined behaviour.  A
parsed request whose object lacks a `command` member makes
`process_request` pass a null pointer to `strcmp` (undefined behaviour,
modelled `none`); and a `poll_event` whose JSON allocation fails after the
dequeue returns `ERROR_JSON_ALLOC` with the event queue already mutated
(the dequeued event is lost). -/
theorem claim_C3_not_atomic :
    process_request true (.parsed none { id := 0, trigger := 0, release := 0, raw := false })
        (Sys.init []) = none ∧
    process_request false pollReq { Sys.init [] with events := [.sensorFlexed 0] } =
      some (.ERROR_JSON_ALLOC, Sys.init [], none) :=
  ⟨rfl, rfl⟩

/-- C4: `poll_event` on an empty queue answers `SUCCESS_NULL` (the null
token); with exactly one queued transition it answers one object keyed by
the transition kind and carrying the sensor id, leaving the queue empty,
and the immediately following `poll_event` answers the null token again. -/
theorem claim_C4_poll_event (s0 s1 : Sys) (e : Event)
    (h0 : s0.events = []) (h1 : s1.events = [e]) (hid : e.sensor_id < 256) :
    process_request true pollReq s0 = some (.SUCCESS_NULL, s0, none) ∧
    process_request true pollReq s1 =
      some (.SUCCESS, { s1 with events := [] },
        some (.eventObj
          (if e.type = EventType.SENSOR_FLEXED then "flexed" else "extended")
          e.sensor_id)) ∧
    process_request true pollReq { s1 with events := [] } =
      some (.SUCCESS_NULL, { s1 with events := [] }, none) := by
  have hdl : decimalLen e.sensor_id ≤ 3 := decimalLen_le_three _ (by omega)
  have hklen :
      (if e.type = EventType.SENSOR_FLEXED then "flexed" else "extended").length ≤ 8 := by
    split <;> decide
  have hresp : ¬ (message_buffer_size - 1 <
      respLen (.eventObj
        (if e.type = EventType.SENSOR_FLEXED then "flexed" else "extended")
        e.sensor_id)) := by
    simp only [respLen, message_buffer_size]
    omega
  refine ⟨?_, ?_, ?_⟩
  · simp [process_request, pollReq, pull, h0]
  · simp only [process_request, pollReq, pull, h1]
    rw [if_neg (by decide : ¬ ("poll_event" = "device_info")),
      if_neg (by decide : ¬ (true = false)), if_neg hresp]
    simp
  · simp [process_request, pollReq, pull]

/-- Witness for C4 with the single transition `SENSOR_FLEXED` on sensor 3. -/
theorem claim_C4_poll_event_witness :
    process_request true pollReq (Sys.init []) =
      some (.SUCCESS_NULL, Sys.init [], none) ∧
    process_request true pollReq { Sys.init [] with events := [.sensorFlexed 3] } =
      some (.SUCCESS, Sys.init [], some (.eventObj "flexed" 3)) ∧
    process_request true pollReq (Sys.init []) =
      some (.SUCCESS_NULL, Sys.init [], none) := by
  have h := claim_C4_poll_event (Sys.init [])
    { Sys.init [] with events := [.sensorFlexed 3] } (.sensorFlexed 3)
    rfl rfl (by decide)
  refine ⟨h.1, ?_, ?_⟩
  · simpa using h.2.1
  · simpa using h.2.2

/-- C7 (code): in `process_inputs`, a sensor whose calibration has
`low == high` divides by zero inside `map` — undefined behaviour, not the
saturate-to-255 policy the design mandates. -/
theorem claim_C7_div_by_zero (i : Nat) (th : SensorThresholds) (c : Int)
    (st : SensorState) (raw : Int) :
    sensorStep i th { low := c, high := c } st raw = none := by
  simp [sensorStep, cmap]

/-- C8: the calibration mode only steps through the four-state cycle.
From `COMMAND`, an activation enters `CALIBRATION_FLEXED` exactly when a
previous activation was recorded (`LAST_TIME ≠ 0`) less than 1000 ms ago,
and otherwise only records its timestamp; one further activation moves
`CALIBRATION_FLEXED` to `CALIBRATION_EXTENDED` and another moves
`CALIBRATION_EXTENDED` to `CALIBRATION_FINAL`; in `CALIBRATION_FINAL` the
trigger does nothing, and the main loop persists the calibration to
EEPROM and returns the mode to `COMMAND` with no external activation. -/
theorem claim_C8_state_machine (lt t : Nat) (raws : List Int) (s : Sys)
    (hle : lt ≤ t) (ht : t < 2 ^ 32) :
    (calibration_isr .COMMAND lt t =
      if lt ≠ 0 ∧ t - lt < 1000 then (.CALIBRATION_FLEXED, t) else (.COMMAND, t)) ∧
    calibration_isr .CALIBRATION_FLEXED lt t = (.CALIBRATION_EXTENDED, lt) ∧
    calibration_isr .CALIBRATION_EXTENDED lt t = (.CALIBRATION_FINAL, lt) ∧
    calibration_isr .CALIBRATION_FINAL lt t = (.CALIBRATION_FINAL, lt) ∧
    (s.mode = .CALIBRATION_FINAL →
      loopCalStep raws s = { s with mode := .COMMAND, eeprom := s.sensor_calibration }) := by
  have hsub : u32sub t lt = t - lt := by
    simp only [u32sub]
    omega
  refine ⟨?_, rfl, rfl, rfl, ?_⟩
  · simp only [calibration_isr, hsub]
    by_cases h0 : lt = 0
    · simp [h0]
    · by_cases h1 : t - lt < 1000
      · simp [h0, h1]
      · simp [h0, h1]
  · intro hm
    simp [loopCalStep, hm]

/-- Witness for C8: a double activation 400 ms apart calibrates; a stale
one does not; a `CALIBRATION_FINAL` loop iteration persists and returns. -/
theorem claim_C8_state_machine_witness :
    calibration_isr .COMMAND 500 900 = (.CALIBRATION_FLEXED, 900) ∧
    calibration_isr .CALIBRATION_FLEXED 500 900 = (.CALIBRATION_EXTENDED, 500) ∧
    loopCalStep []
        { mode := .CALIBRATION_FINAL, lastTime := 0, events := [],
          sensor_state := [], sensor_thresholds := [],
          sensor_calibration := [{ low := 3, high := 700 }],
          eeprom := [{ low := 0, high := 0 }] } =
      { mode := .COMMAND, lastTime := 0, events := [], sensor_state := [],
        sensor_thresholds := [], sensor_calibration := [{ low := 3, high := 700 }],
        eeprom := [{ low := 3, high := 700 }] } := by
  have h := claim_C8_state_machine 500 900 []
    { mode := .CALIBRATION_FINAL, lastTime := 0, events := [],
      sensor_state := [], sensor_thresholds := [],
      sensor_calibration := [{ low := 3, high := 700 }],
      eeprom := [{ low := 0, high := 0 }] }
    (by omega) (by norm_num)
  refine ⟨?_, h.2.1, ?_⟩
  · rw [h.1, if_pos (by omega)]
  · exact h.2.2.2.2 rfl

/-- Every drain loop empties the queue. -/
theorem drainAll_eq_nil (q : List Event) : drainAll q = [] := by
  induction q with
  | nil => rw [drainAll]; exact rfl
  | cons e rest ih =>
    rw [drainAll]
    simpa [pull] using ih

/-- The concrete pre-disconnection state used to refute C6 on the
thresholds variant: one pending event and a flexed sensor. -/
def s6ex : Sys where
  mode := .COMMAND
  lastTime := 0
  events := [.sensorFlexed 0]
  sensor_state := [{ flexed := true, raw := 7, mapped := 0 }]
  sensor_thresholds := [{ trigger := 255, release := 0 }]
  sensor_calibration := [{ low := 0, high := 1 }]
  eeprom := [{ low := 0, high := 1 }]

/-- C6 fails on `src/unnamed/part_000`: its `loop()` merely skips the tick
while disconnected (`if (!Serial) break;`) and, on the tick after the
transport returns, neither drains the queue nor resets `flexed` — the
pending event and the flexed flag survive the reconnection. -/
theorem claim_C6_counterexample :
    serialTick false (fun _ => .parseFail) true [0] [] s6ex =
      some (s6ex, none, []) ∧
    serialTick true (fun _ => .parseFail) true [0] [] s6ex =
      some ({ s6ex with sensor_state := [{ flexed := true, raw := 0, mapped := 0 }] },
        none, []) ∧
    s6ex.events = [.sensorFlexed 0] ∧
    ({ s6ex with sensor_state := [{ flexed := true, raw := 0, mapped := 0 }] } : Sys).events
      = [.sensorFlexed 0] :=
  ⟨rfl, rfl, rfl, rfl⟩

/-- C6 amended: in the per-sensor-activation variant (`program.ino`), the
reconnect block drains every pending event and resets every sensor's
runtime state to `flexed = false`, `raw = 0`, deactivating all sensors,
whatever was held before the disconnection; the thresholds variant
(`part_000`) performs no such reset. -/
theorem claim_C6_reconnect_reset (q : List Event) (sts : List SensorStateA)
    (cfgs : List SensorConfig) :
    (reconnect_reset q sts cfgs).1 = [] ∧
    (∀ st ∈ (reconnect_reset q sts cfgs).2.1, st = { flexed := false, raw := 0 }) ∧
    (∀ c ∈ (reconnect_reset q sts cfgs).2.2, c.active = false) := by
  refine ⟨drainAll_eq_nil q, ?_, ?_⟩
  · intro st hst
    rcases List.mem_map.mp hst with ⟨_, _, h⟩
    exact h.symm
  · intro c hc
    rcases List.mem_map.mp hc with ⟨c0, _, h⟩
    rw [← h]

section SerialLemmas

/-- When no terminator occurs among the first `n` characters, the read
stores exactly `n` characters and leaves the rest. -/
theorem readBytesUntil_no_nl (input : List Char) (n : Nat) (hn : n ≤ input.length)
    (h : ∀ c ∈ input.take n, c ≠ '\n') :
    readBytesUntil input n = (input.take n, input.drop n) := by
  induction input generalizing n with
  | nil =>
    simp only [List.length_nil, Nat.le_zero] at hn
    simp [readBytesUntil, hn]
  | cons c cs ih =>
    cases n with
    | zero => simp [readBytesUntil]
    | succ m =>
      have hc : c ≠ '\n' := h c (by simp)
      rw [readBytesUntil, if_neg (by omega), if_neg hc]
      have hm : m ≤ cs.length := by
        simp only [List.length_cons] at hn
        omega
      have htk : ∀ d ∈ cs.take m, d ≠ '\n' := by
        intro d hd
        exact h d (by simp [List.take_succ_cons]; right; exact hd)
      rw [show m + 1 - 1 = m from rfl, ih m hm htk]
      simp [List.take_succ_cons, List.drop_succ_cons]

/-- A newline-terminated line shorter than the buffer is stored whole,
the terminator is consumed and the rest of the stream is left unread. -/
theorem readBytesUntil_line (line rest : List Char) (n : Nat)
    (hlen : line.length < n) (h : '\n' ∉ line) :
    readBytesUntil (line ++ '\n' :: rest) n = (line, rest) := by
  induction line generalizing n with
  | nil =>
    cases n with
    | zero => omega
    | succ m => simp [readBytesUntil]
  | cons c cs ih =>
    cases n with
    | zero => omega
    | succ m =>
      have hc : c ≠ '\n' := fun hcc => h (by simp [hcc])
      rw [List.cons_append, readBytesUntil, if_neg (by omega), if_neg hc,
        show m + 1 - 1 = m from rfl,
        ih m (by simp only [List.length_cons] at hlen; omega) (fun hx => h (by simp [hx]))]

end SerialLemmas

/-- C5: a received line of 256 or more bytes before its terminator fills
the buffer; the loop rejects it, printing the numeric code 2
(`ERROR_REQUEST_TOO_LONG`), and flushes the unread input, and a following
well-formed request of at most 255 bytes (here a valid `set_thresholds`)
is dispatched and answered normally on the same connection. -/
theorem claim_C5_request_too_long
    (parse : List Char → Request) (allocOk : Bool) (raws1 raws2 : List Int)
    (line1 line2 rest2 : List Char) (f : RequestFields)
    (s s1 s2 : Sys) (t1 t2 : List Event)
    (h1a : message_buffer_size ≤ line1.length)
    (h1b : ∀ c ∈ line1.take message_buffer_size, c ≠ '\n')
    (hpi1 : process_inputs raws1 s = some (s1, t1))
    (h2a : line2.length < message_buffer_size)
    (h2b : '\n' ∉ line2)
    (hparse : parse line2 = .parsed (some "set_thresholds") f)
    (hpi2 : process_inputs raws2 s1 = some (s2, t2))
    (hid : f.id < s2.sensor_thresholds.length) :
    serialTick true parse allocOk raws1 line1 s = some (s1, some (.code 2), []) ∧
    serialTick true parse allocOk raws2 (line2 ++ '\n' :: rest2) s1 =
      some ({ s2 with sensor_thresholds :=
          s2.sensor_thresholds.set f.id { trigger := f.trigger, release := f.release } },
        some .nullTok, rest2) := by
  constructor
  · rw [serialTick, if_neg (by decide), hpi1]
    simp only
    rw [if_neg (by simp only [message_buffer_size] at h1a; omega),
      readBytesUntil_no_nl line1 message_buffer_size h1a h1b]
    simp only [List.length_take]
    rw [if_pos (by omega)]
    rfl
  · rw [serialTick, if_neg (by decide), hpi2]
    simp only
    rw [if_neg (by simp only [List.length_append, List.length_cons, message_buffer_size]; omega),
      readBytesUntil_line line2 rest2 message_buffer_size h2a h2b]
    simp only
    rw [if_neg (by omega), hparse, process_request]
    rw [if_neg (by decide : ¬ ("set_thresholds" = "device_info")),
      if_neg (by decide : ¬ ("set_thresholds" = "poll_event")),
      if_pos rfl, if_neg (by omega)]

/-- Witness for C5: a 256-byte line of `a`s is answered with code 2 and
the input flushed; the following one-byte request parsed as a valid
`set_thresholds` is answered with the null token and applied. -/
theorem claim_C5_request_too_long_witness :
    serialTick true
        (fun cs => if cs = ['x']
          then .parsed (some "set_thresholds")
            { id := 0, trigger := 200, release := 50, raw := false }
          else .parseFail)
        true [0] (List.replicate 256 'a')
        (Sys.init [{ low := 0, high := 1 }]) =
      some (Sys.init [{ low := 0, high := 1 }], some (.code 2), []) ∧
    serialTick true
        (fun cs => if cs = ['x']
          then .parsed (some "set_thresholds")
            { id := 0, trigger := 200, release := 50, raw := false }
          else .parseFail)
        true [0] (['x'] ++ '\n' :: ['y'])
        (Sys.init [{ low := 0, high := 1 }]) =
      some ({ Sys.init [{ low := 0, high := 1 }] with
          sensor_thresholds := [{ trigger := 200, release := 50 }] },
        some .nullTok, ['y']) := by
  have h := claim_C5_request_too_long
    (fun cs => if cs = ['x']
      then .parsed (some "set_thresholds")
        { id := 0, trigger := 200, release := 50, raw := false }
      else .parseFail)
    true [0] [0] (List.replicate 256 'a') ['x'] ['y']
    { id := 0, trigger := 200, release := 50, raw := false }
    (Sys.init [{ low := 0, high := 1 }]) (Sys.init [{ low := 0, high := 1 }])
    (Sys.init [{ low := 0, high := 1 }]) [] []
    (by simp [message_buffer_size])
    (by
      intro c hc
      have := List.eq_of_mem_replicate (List.mem_of_mem_take hc)
      simp [this])
    rfl
    (by simp [message_buffer_size])
    (by simp)
    (by simp)
    rfl
    (by simp [Sys.init])
  refine ⟨h.1, ?_⟩
  rw [h.2]
  rfl

/-!  ## System runs of the thresholds variant

A run interleaves, in any order: `process_inputs` ticks (with arbitrary
analog samples), the calibration trigger firing at arbitrary times,
dispatched requests (arbitrary parse outcomes and allocation results),
and the loop's calibration branches.  Each step is labelled with the
events it pushes into the queue.  -/

/-- Whether an event is one of the two sensor transitions. -/
def Event.isSensor : Event → Bool
  | .sensorFlexed _ => true
  | .sensorExtended _ => true
  | .modeChanged _ => false

/-- One labelled step of the firmware. -/
inductive Step : Sys → List Event → Sys → Prop where
  | inputs (raws : List Int) (s s' : Sys) (tr : List Event) :
      s.mode = .COMMAND → process_inputs raws s = some (s', tr) → Step s tr s'
  | isr (time : Nat) (s : Sys) : Step s [] (isrStep time s)
  | request (allocOk : Bool) (req : Request) (s : Sys) (r : CommandResult) (s' : Sys)
      (resp : Option Resp) :
      s.mode = .COMMAND → process_request allocOk req s = some (r, s', resp) →
      Step s [] s'
  | calibrate (raws : List Int) (s : Sys) :
      s.mode ≠ .COMMAND → Step s [] (loopCalStep raws s)

/-- States reachable from `setup()`, together with the full trace of
events pushed so far. -/
inductive ReachTr : Sys → List Event → Prop where
  | init (cal0 : List SensorCalibration) : ReachTr (Sys.init cal0) []
  | step {s : Sys} {tr tr' : List Event} {s' : Sys} :
      ReachTr s tr → Step s tr' s' → ReachTr s' (tr ++ tr')

section StepLemmas

/-- An element of the queue after the eviction push was already queued or
is the pushed event. -/
theorem mem_pushEvict (q : List Event) (e x : Event) (hx : x ∈ pushEvict q e) :
    x ∈ q ∨ x = e := by
  induction q with
  | nil =>
    rw [pushEvict.eq_def] at hx
    simp [event_queue_size] at hx
    exact Or.inr hx
  | cons y ys ih =>
    rw [pushEvict.eq_def] at hx
    by_cases h : (y :: ys).length < event_queue_size
    · rw [if_pos h] at hx
      rcases List.mem_append.mp hx with h1 | h1
      · exact Or.inl h1
      · exact Or.inr (List.mem_singleton.mp h1)
    · rw [if_neg h] at hx
      simp only at hx
      rcases ih hx with h1 | h1
      · exact Or.inl (List.mem_cons_of_mem y h1)
      · exact Or.inr h1

/-- `detect` either keeps the flag and emits nothing, or flips `false`
to `true` emitting `SENSOR_FLEXED`, or flips `true` to `false` emitting
`SENSOR_EXTENDED`. -/
theorem detect_shape (th : SensorThresholds) (b : Bool) (m : Nat) :
    detect th b m = (b, none) ∨
    (b = false ∧ detect th b m = (true, some .SENSOR_FLEXED)) ∨
    (b = true ∧ detect th b m = (false, some .SENSOR_EXTENDED)) := by
  cases b with
  | false =>
    by_cases h : th.trigger < m
    · exact Or.inr (Or.inl ⟨rfl, by simp [detect, h]⟩)
    · exact Or.inl (by simp [detect, h])
  | true =>
    by_cases h : m < th.release
    · exact Or.inr (Or.inr ⟨rfl, by simp [detect, h]⟩)
    · exact Or.inl (by simp [detect, h])

/-- What one sensor step does: the stored state records the computed
normalized value and the flag produced by `detect`, and the emitted event
is the detected transition carrying this sensor's id. -/
theorem sensorStep_spec (id : Nat) (th : SensorThresholds) (cal : SensorCalibration)
    (st : SensorState) (raw : Int) (st' : SensorState) (ev : Option Event)
    (h : sensorStep id th cal st raw = some (st', ev)) :
    st'.raw = raw ∧
    ∃ k : Option EventType,
      detect th st.flexed st'.mapped = (st'.flexed, k) ∧
      ((k = none ∧ ev = none) ∨
       (k = some .SENSOR_FLEXED ∧ ev = some (.sensorFlexed id)) ∨
       (k = some .SENSOR_EXTENDED ∧ ev = some (.sensorExtended id))) := by
  rcases hc : cmap raw cal.low cal.high 0 255 with _ | m
  · rw [sensorStep, hc] at h
    exact absurd h (by simp)
  · rw [sensorStep, hc] at h
    simp only at h
    rcases detect_shape th st.flexed ((constrain m 0 255).toNat) with hd | ⟨hb, hd⟩ | ⟨hb, hd⟩
    · rw [hd] at h
      simp only [Option.some.injEq, Prod.mk.injEq] at h
      refine ⟨by rw [← h.1], none, ?_, Or.inl ⟨rfl, h.2.symm⟩⟩
      rw [← h.1, hd]
    · rw [hd] at h
      simp only [Option.some.injEq, Prod.mk.injEq] at h
      refine ⟨by rw [← h.1], some .SENSOR_FLEXED, ?_, Or.inr (Or.inl ⟨rfl, h.2.symm⟩)⟩
      rw [← h.1, hd]
    · rw [hd] at h
      simp only [Option.some.injEq, Prod.mk.injEq] at h
      refine ⟨by rw [← h.1], some .SENSOR_EXTENDED, ?_, Or.inr (Or.inr ⟨rfl, h.2.symm⟩)⟩
      rw [← h.1, hd]

/-- The contribution of one event to the trace of sensor `i`. -/
def kindOf (i : Nat) : Event → Option EventType
  | .sensorFlexed id => if id = i then some .SENSOR_FLEXED else none
  | .sensorExtended id => if id = i then some .SENSOR_EXTENDED else none
  | .modeChanged _ => none

/-- The subsequence of a trace emitted for sensor `i`. -/
def sensorTrace (i : Nat) (tr : List Event) : List EventType :=
  tr.filterMap (kindOf i)

/-- `AltFrom b l b'`: from flag `b`, the emitted kinds `l` strictly
alternate — `SENSOR_FLEXED` only from `false`, `SENSOR_EXTENDED` only
from `true` — ending at flag `b'`. -/
inductive AltFrom : Bool → List EventType → Bool → Prop where
  | nil (b : Bool) : AltFrom b [] b
  | flex {l : List EventType} {b' : Bool} :
      AltFrom true l b' → AltFrom false (.SENSOR_FLEXED :: l) b'
  | ext {l : List EventType} {b' : Bool} :
      AltFrom false l b' → AltFrom true (.SENSOR_EXTENDED :: l) b'

theorem altFrom_snoc_flex {b0 b1 : Bool} {l : List EventType}
    (h : AltFrom b0 l b1) (hb : b1 = false) :
    AltFrom b0 (l ++ [.SENSOR_FLEXED]) true := by
  induction h with
  | nil b => subst hb; exact AltFrom.flex (AltFrom.nil true)
  | flex _ ih => exact AltFrom.flex (ih hb)
  | ext _ ih => exact AltFrom.ext (ih hb)

theorem altFrom_snoc_ext {b0 b1 : Bool} {l : List EventType}
    (h : AltFrom b0 l b1) (hb : b1 = true) :
    AltFrom b0 (l ++ [.SENSOR_EXTENDED]) false := by
  induction h with
  | nil b => subst hb; exact AltFrom.ext (AltFrom.nil false)
  | flex _ ih => exact AltFrom.flex (ih hb)
  | ext _ ih => exact AltFrom.ext (ih hb)

theorem sensorTrace_nil (i : Nat) : sensorTrace i [] = [] := rfl

theorem sensorTrace_cons_none {i : Nat} {e : Event} (tr : List Event)
    (h : kindOf i e = none) : sensorTrace i (e :: tr) = sensorTrace i tr := by
  simp [sensorTrace, List.filterMap_cons, h]

theorem sensorTrace_cons_some {i : Nat} {e : Event} {k : EventType} (tr : List Event)
    (h : kindOf i e = some k) : sensorTrace i (e :: tr) = k :: sensorTrace i tr := by
  simp [sensorTrace, List.filterMap_cons, h]

theorem sensorTrace_append (i : Nat) (l1 l2 : List Event) :
    sensorTrace i (l1 ++ l2) = sensorTrace i l1 ++ sensorTrace i l2 := by
  simp [sensorTrace, List.filterMap_append]

/-- The default records used for out-of-range `getD` reads. -/
def defaultState : SensorState := { flexed := false, raw := 0, mapped := 0 }

/-- Default thresholds (the zero-initialized static). -/
def defaultThresholds : SensorThresholds := { trigger := 0, release := 0 }

/-- Full characterization of one `process_inputs` sweep over the sensor
arrays starting at index `d`: the state array keeps its length, every
pushed event is a sensor transition, every queued event was already
queued or was pushed in this sweep, sensors outside `[d, d + n)` get no
trace, and each swept sensor's trace and new flag are exactly one
`detect` step on its stored normalized value. -/
theorem processInputsAux_spec (sts : List SensorState) :
    ∀ (d : Nat) (ths : List SensorThresholds) (cals : List SensorCalibration)
      (raws : List Int) (q : List Event) (sts' : List SensorState) (q' tr : List Event),
      processInputsAux d ths cals sts raws q = some (sts', q', tr) →
      sts'.length = sts.length ∧
      (∀ e ∈ tr, e.isSensor = true) ∧
      (∀ e ∈ q', e ∈ q ∨ e ∈ tr) ∧
      (∀ i : Nat, i < d → sensorTrace i tr = []) ∧
      (∀ i : Nat, d + sts.length ≤ i → sensorTrace i tr = []) ∧
      (∀ k : Nat, k < sts.length →
        ∃ ev : Option EventType,
          detect (ths.getD k defaultThresholds) ((sts.getD k defaultState).flexed)
              ((sts'.getD k defaultState).mapped) =
            ((sts'.getD k defaultState).flexed, ev) ∧
          sensorTrace (d + k) tr = ev.toList) := by
  induction sts with
  | nil =>
    intro d ths cals raws q sts' q' tr h
    cases ths with
    | cons th thsR =>
      cases cals <;> cases raws <;> simp [processInputsAux] at h
    | nil =>
      cases cals with
      | cons c calsR => cases raws <;> simp [processInputsAux] at h
      | nil =>
        cases raws with
        | cons r rawsR => simp [processInputsAux] at h
        | nil =>
          simp only [processInputsAux, Option.some.injEq, Prod.mk.injEq] at h
          obtain ⟨h1, h2, h3⟩ := h
          subst h1; subst h2; subst h3
          refine ⟨rfl, by simp, fun e he => Or.inl he, fun i _ => rfl, fun i _ => rfl,
            fun k hk => absurd hk (by simp)⟩
  | cons st stsR ih =>
    intro d ths cals raws q sts' q' tr h
    cases ths with
    | nil => cases cals <;> cases raws <;> simp [processInputsAux] at h
    | cons th thsR =>
      cases cals with
      | nil => cases raws <;> simp [processInputsAux] at h
      | cons c calsR =>
        cases raws with
        | nil => simp [processInputsAux] at h
        | cons r rawsR =>
          simp only [processInputsAux] at h
          rcases hss : sensorStep d th c st r with _ | ⟨st1, ev⟩
          · rw [hss] at h
            exact absurd h (by simp)
          · rw [hss] at h
            simp only at h
            obtain ⟨hraw, kk, hdet, hkk⟩ := sensorStep_spec d th c st r st1 ev hss
            cases ev with
            | none =>
              rcases hrec : processInputsAux (d + 1) thsR calsR stsR rawsR q
                with _ | ⟨⟨sts1, q1, tr1⟩⟩
              · rw [hrec] at h
                exact absurd h (by simp)
              · rw [hrec] at h
                simp only [Option.toList_none, List.nil_append, Option.some.injEq,
                  Prod.mk.injEq] at h
                obtain ⟨h1, h2, h3⟩ := h
                subst h1; subst h2; subst h3
                obtain ⟨ihl, ihs, ihq, ihlo, ihhi, ihk⟩ :=
                  ih (d + 1) thsR calsR rawsR q sts1 q1 tr1 hrec
                have hkn : kk = none := by
                  rcases hkk with ⟨hk1, _⟩ | ⟨_, hk2⟩ | ⟨_, hk2⟩
                  · exact hk1
                  · exact absurd hk2 (by simp)
                  · exact absurd hk2 (by simp)
                subst hkn
                refine ⟨by simp [ihl], ihs, ihq, ?_, ?_, ?_⟩
                · intro i hi
                  exact ihlo i (by omega)
                · intro i hi
                  apply ihhi i
                  simp only [List.length_cons] at hi
                  omega
                · intro k hk
                  cases k with
                  | zero =>
                    refine ⟨none, ?_, ?_⟩
                    · simpa using hdet
                    · simpa using ihlo d (by omega)
                  | succ k' =>
                    simp only [List.length_cons] at hk
                    obtain ⟨ev', hd', ht'⟩ := ihk k' (by omega)
                    refine ⟨ev', by simpa using hd', ?_⟩
                    have : d + (k' + 1) = d + 1 + k' := by omega
                    rw [this]
                    simpa using ht'
            | some e =>
              rcases hrec : processInputsAux (d + 1) thsR calsR stsR rawsR (pushEvict q e)
                with _ | ⟨⟨sts1, q1, tr1⟩⟩
              · rw [hrec] at h
                exact absurd h (by simp)
              · rw [hrec] at h
                simp only [Option.toList_some, List.singleton_append, Option.some.injEq,
                  Prod.mk.injEq] at h
                obtain ⟨h1, h2, h3⟩ := h
                subst h1; subst h2; subst h3
                obtain ⟨ihl, ihs, ihq, ihlo, ihhi, ihk⟩ :=
                  ih (d + 1) thsR calsR rawsR (pushEvict q e) sts1 q1 tr1 hrec
                have he : (e = Event.sensorFlexed d ∧ kk = some .SENSOR_FLEXED) ∨
                    (e = Event.sensorExtended d ∧ kk = some .SENSOR_EXTENDED) := by
                  rcases hkk with ⟨_, hk2⟩ | ⟨hk1, hk2⟩ | ⟨hk1, hk2⟩
                  · exact absurd hk2 (by simp)
                  · exact Or.inl ⟨by simpa using hk2, hk1⟩
                  · exact Or.inr ⟨by simpa using hk2, hk1⟩
                have hesensor : e.isSensor = true := by
                  rcases he with ⟨he1, _⟩ | ⟨he1, _⟩ <;> subst he1 <;> rfl
                have hkind : kindOf d e = kk := by
                  rcases he with ⟨he1, hk1⟩ | ⟨he1, hk1⟩ <;> subst he1 <;>
                    simp [kindOf, hk1]
                have hkindne : ∀ i : Nat, i ≠ d → kindOf i e = none := by
                  intro i hne
                  have hdi : ¬ d = i := fun hx => hne hx.symm
                  rcases he with ⟨he1, _⟩ | ⟨he1, _⟩ <;> subst he1 <;> simp [kindOf, hdi]
                refine ⟨by simp [ihl], ?_, ?_, ?_, ?_, ?_⟩
                · intro x hx
                  rcases List.mem_cons.mp hx with h1 | h1
                  · subst h1; exact hesensor
                  · exact ihs x h1
                · intro x hx
                  rcases ihq x hx with h1 | h1
                  · rcases mem_pushEvict q e x h1 with h2 | h2
                    · exact Or.inl h2
                    · subst h2; exact Or.inr (List.mem_cons_self x tr1)
                  · exact Or.inr (List.mem_cons_of_mem e h1)
                · intro i hi
                  rw [sensorTrace_cons_none tr1 (hkindne i (by omega))]
                  exact ihlo i (by omega)
                · intro i hi
                  simp only [List.length_cons] at hi
                  rw [sensorTrace_cons_none tr1 (hkindne i (by omega))]
                  exact ihhi i (by omega)
                · intro k hk
                  cases k with
                  | zero =>
                    rcases he with ⟨he1, hk1⟩ | ⟨he1, hk1⟩ <;> subst hk1
                    · refine ⟨some .SENSOR_FLEXED, by simpa using hdet, ?_⟩
                      rw [Nat.add_zero, sensorTrace_cons_some tr1 hkind]
                      simpa using ihlo d (by omega)
                    · refine ⟨some .SENSOR_EXTENDED, by simpa using hdet, ?_⟩
                      rw [Nat.add_zero, sensorTrace_cons_some tr1 hkind]
                      simpa using ihlo d (by omega)
                  | succ k' =>
                    simp only [List.length_cons] at hk
                    obtain ⟨ev', hd', ht'⟩ := ihk k' (by omega)
                    refine ⟨ev', by simpa using hd', ?_⟩
                    rw [sensorTrace_cons_none tr1 (hkindne (d + (k' + 1)) (by omega))]
                    have : d + (k' + 1) = d + 1 + k' := by omega
                    rw [this]
                    simpa using ht'


/-- A successful `pull` decomposes the queue. -/
theorem pull_some {q : List Event} {e : Event} {rest : List Event}
    (h : pull q = some (e, rest)) : q = e :: rest := by
  cases q with
  | nil => simp [pull] at h
  | cons x xs =>
    simp only [pull, Option.some.injEq, Prod.mk.injEq] at h
    rw [h.1, h.2]

/-- A dispatched request never touches the sensor states, and only ever
removes the head of the event queue (in `poll_event`). -/
theorem process_request_state (allocOk : Bool) (req : Request) (s : Sys)
    (r : CommandResult) (s' : Sys) (resp : Option Resp)
    (h : process_request allocOk req s = some (r, s', resp)) :
    s'.sensor_state = s.sensor_state ∧
    (s'.events = s.events ∨ ∃ e, s.events = e :: s'.events) := by
  cases req with
  | parseFail =>
    injection h with hh
    injection hh with h1 h23
    injection h23 with h2 h3
    subst h2
    exact ⟨rfl, Or.inl rfl⟩
  | parsed cmd f =>
    cases cmd with
    | none => simp [process_request] at h
    | some c =>
      simp only [process_request] at h
      split at h
      · injection h with hh
        injection hh with h1 h23
        injection h23 with h2 h3
        subst h2
        exact ⟨rfl, Or.inl rfl⟩
      · split at h
        · rcases hq : s.events with _ | ⟨e, rest⟩ <;> rw [hq] at h <;>
            simp only [pull] at h
          · injection h with hh
            injection hh with h1 h23
            injection h23 with h2 h3
            subst h2
            exact ⟨rfl, Or.inl hq⟩
          · split at h
            · injection h with hh
              injection hh with h1 h23
              injection h23 with h2 h3
              subst h2
              exact ⟨rfl, Or.inr ⟨e, rfl⟩⟩
            · split at h
              · split at h
                · injection h with hh
                  injection hh with h1 h23
                  injection h23 with h2 h3
                  subst h2
                  exact ⟨rfl, Or.inr ⟨e, rfl⟩⟩
                · injection h with hh
                  injection hh with h1 h23
                  injection h23 with h2 h3
                  subst h2
                  exact ⟨rfl, Or.inr ⟨e, rfl⟩⟩
              · split at h
                · injection h with hh
                  injection hh with h1 h23
                  injection h23 with h2 h3
                  subst h2
                  exact ⟨rfl, Or.inr ⟨e, rfl⟩⟩
                · injection h with hh
                  injection hh with h1 h23
                  injection h23 with h2 h3
                  subst h2
                  exact ⟨rfl, Or.inr ⟨e, rfl⟩⟩
        · split at h
          · split at h
            · injection h with hh
              injection hh with h1 h23
              injection h23 with h2 h3
              subst h2
              exact ⟨rfl, Or.inl rfl⟩
            · injection h with hh
              injection hh with h1 h23
              injection h23 with h2 h3
              subst h2
              exact ⟨rfl, Or.inl rfl⟩
          · split at h
            · split at h
              · injection h with hh
                injection hh with h1 h23
                injection h23 with h2 h3
                subst h2
                exact ⟨rfl, Or.inl rfl⟩
              · split at h
                · split at h
                  · injection h with hh
                    injection hh with h1 h23
                    injection h23 with h2 h3
                    subst h2
                    exact ⟨rfl, Or.inl rfl⟩
                  · injection h with hh
                    injection hh with h1 h23
                    injection h23 with h2 h3
                    subst h2
                    exact ⟨rfl, Or.inl rfl⟩
                · split at h
                  · injection h with hh
                    injection hh with h1 h23
                    injection h23 with h2 h3
                    subst h2
                    exact ⟨rfl, Or.inl rfl⟩
                  · injection h with hh
                    injection hh with h1 h23
                    injection h23 with h2 h3
                    subst h2
                    exact ⟨rfl, Or.inl rfl⟩
            · injection h with hh
              injection hh with h1 h23
              injection h23 with h2 h3
              subst h2
              exact ⟨rfl, Or.inl rfl⟩

/-- The loop's calibration branches never touch the sensor states or the
event queue. -/
theorem loopCalStep_state (raws : List Int) (s : Sys) :
    (loopCalStep raws s).sensor_state = s.sensor_state ∧
    (loopCalStep raws s).events = s.events := by
  cases hm : s.mode <;> simp [loopCalStep, hm]

/-- C9: in every reachable state, every event held in the queue is a
sensor transition (`SENSOR_FLEXED` or `SENSOR_EXTENDED`); no
`MODE_CHANGED` event is ever enqueued, so `poll_event`'s two-way keying
("flexed" for `SENSOR_FLEXED`, "extended" otherwise) is exhaustive over
dequeuable events. -/
theorem claim_C9_queue_sensor_events (s : Sys) (tr : List Event)
    (h : ReachTr s tr) : ∀ e ∈ s.events, e.isSensor = true := by
  suffices hs : (∀ e ∈ s.events, e.isSensor = true) ∧
      (∀ e ∈ tr, e.isSensor = true) from hs.1
  induction h with
  | init cal0 => exact ⟨by simp [Sys.init], by simp⟩
  | step hr hst ih =>
    rename_i sA trR trN sB
    cases hst with
    | inputs raws _ _ _ hm hpi =>
      rw [process_inputs.eq_def] at hpi
      rcases haux : processInputsAux 0 sA.sensor_thresholds sA.sensor_calibration
          sA.sensor_state raws sA.events with _ | ⟨⟨sts', q', trA⟩⟩
      · rw [haux] at hpi
        exact absurd hpi (by simp)
      · rw [haux] at hpi
        simp only [Option.some.injEq, Prod.mk.injEq] at hpi
        obtain ⟨hs1, htr⟩ := hpi
        subst hs1
        subst htr
        obtain ⟨_, hTr, hQ, _, _, _⟩ :=
          processInputsAux_spec sA.sensor_state 0 sA.sensor_thresholds
            sA.sensor_calibration raws sA.events sts' q' trA haux
        constructor
        · intro e he
          rcases hQ e he with h1 | h1
          · exact ih.1 e h1
          · exact hTr e h1
        · intro e he
          rcases List.mem_append.mp he with h1 | h1
          · exact ih.2 e h1
          · exact hTr e h1
    | isr time _ =>
      refine ⟨fun e he => ih.1 e he, ?_⟩
      simp only [List.append_nil]
      exact ih.2
    | request allocOk req _ r _ resp hm hreq =>
      obtain ⟨_, hev⟩ := process_request_state allocOk req sA r sB resp hreq
      constructor
      · intro e he
        rcases hev with h1 | ⟨e0, h1⟩
        · exact ih.1 e (h1 ▸ he)
        · exact ih.1 e (by rw [h1]; exact List.mem_cons_of_mem e0 he)
      · simp only [List.append_nil]
        exact ih.2
    | calibrate raws _ hm =>
      obtain ⟨_, hev⟩ := loopCalStep_state raws sA
      refine ⟨fun e he => ih.1 e (hev ▸ he), ?_⟩
      simp only [List.append_nil]
      exact ih.2

/-- A reachable state after one `process_inputs` tick on a fresh device
with one sensor calibrated to `{low 0, high 1}`, whose sample 2 maps to
255 and trips the zero trigger. -/
def sExRun : Sys where
  mode := .COMMAND
  lastTime := 0
  events := [.sensorFlexed 0]
  sensor_state := [{ flexed := true, raw := 2, mapped := 255 }]
  sensor_thresholds := [{ trigger := 0, release := 0 }]
  sensor_calibration := [{ low := 0, high := 1 }]
  eeprom := [{ low := 0, high := 1 }]

/-- Witness for C9: the one event queued in a concrete reachable state is
a sensor transition. -/
theorem claim_C9_queue_sensor_events_witness :
    sExRun.events = [Event.sensorFlexed 0] ∧
    (Event.sensorFlexed 0).isSensor = true :=
  ⟨rfl,
    claim_C9_queue_sensor_events sExRun ([] ++ [Event.sensorFlexed 0])
      (ReachTr.step (ReachTr.init [{ low := 0, high := 1 }])
        (Step.inputs [2] (Sys.init [{ low := 0, high := 1 }]) sExRun
          [Event.sensorFlexed 0] rfl rfl))
      (Event.sensorFlexed 0) (List.mem_singleton.mpr rfl)⟩

/-- C10: across any run, each `process_inputs` call emits at most one
event per sensor, and the events emitted for one sensor strictly
alternate — `SENSOR_FLEXED` emitted only from a `false` flag and turning
it `true`, `SENSOR_EXTENDED` only from a `true` flag and turning it
`false`, the trace always matching the flag the sensor currently holds —
so from the initial `flexed = false` state the first event of any sensor
is `SENSOR_FLEXED`. -/
theorem claim_C10_alternation (s : Sys) (tr : List Event) (h : ReachTr s tr) :
    (∀ i : Nat, i < s.sensor_state.length →
      AltFrom false (sensorTrace i tr) ((s.sensor_state.getD i defaultState).flexed)) ∧
    (∀ (s' : Sys) (tr' : List Event), Step s tr' s' →
      ∀ i : Nat, (sensorTrace i tr').length ≤ 1) := by
  constructor
  · induction h with
    | init cal0 =>
      intro i hi
      have hfl : ((Sys.init cal0).sensor_state.getD i defaultState).flexed = false := by
        simp only [Sys.init, List.getD_eq_getElem?_getD, List.getElem?_replicate]
        split <;> rfl
      rw [hfl]
      exact AltFrom.nil false
    | step hr hst ih =>
      rename_i sA trR trN sB
      cases hst with
      | inputs raws _ _ _ hm hpi =>
        rw [process_inputs.eq_def] at hpi
        rcases haux : processInputsAux 0 sA.sensor_thresholds sA.sensor_calibration
            sA.sensor_state raws sA.events with _ | ⟨⟨sts', q', trA⟩⟩
        · rw [haux] at hpi
          exact absurd hpi (by simp)
        · rw [haux] at hpi
          simp only [Option.some.injEq, Prod.mk.injEq] at hpi
          obtain ⟨hs1, htr⟩ := hpi
          subst hs1
          subst htr
          obtain ⟨hLen, _, _, _, _, hK⟩ :=
            processInputsAux_spec sA.sensor_state 0 sA.sensor_thresholds
              sA.sensor_calibration raws sA.events sts' q' trA haux
          intro i hi
          simp only at hi
          rw [hLen] at hi
          obtain ⟨ev, hdet, htrace⟩ := hK i hi
          rw [Nat.zero_add] at htrace
          have hih := ih i hi
          rw [sensorTrace_append, htrace]
          simp only
          rcases detect_shape (sA.sensor_thresholds.getD i defaultThresholds)
              ((sA.sensor_state.getD i defaultState).flexed)
              ((sts'.getD i defaultState).mapped) with hd | ⟨hb, hd⟩ | ⟨hb, hd⟩
          · rw [hd] at hdet
            simp only [Prod.mk.injEq] at hdet
            rw [← hdet.2, ← hdet.1]
            simp only [Option.toList_none, List.append_nil]
            exact hih
          · rw [hd] at hdet
            simp only [Prod.mk.injEq] at hdet
            rw [← hdet.2, ← hdet.1]
            simp only [Option.toList_some]
            exact altFrom_snoc_flex hih (by rw [hb])
          · rw [hd] at hdet
            simp only [Prod.mk.injEq] at hdet
            rw [← hdet.2, ← hdet.1]
            simp only [Option.toList_some]
            exact altFrom_snoc_ext hih (by rw [hb])
      | isr time _ =>
        intro i hi
        rw [sensorTrace_append, sensorTrace_nil, List.append_nil]
        exact ih i hi
      | request allocOk req _ r _ resp hm hreq =>
        obtain ⟨hss, _⟩ := process_request_state allocOk req sA r sB resp hreq
        intro i hi
        rw [sensorTrace_append, sensorTrace_nil, List.append_nil, hss]
        rw [hss] at hi
        exact ih i hi
      | calibrate raws _ hm =>
        obtain ⟨hss, _⟩ := loopCalStep_state raws sA
        intro i hi
        rw [sensorTrace_append, sensorTrace_nil, List.append_nil, hss]
        rw [hss] at hi
        exact ih i hi
  · intro s' tr' hst i
    cases hst with
    | inputs raws _ _ _ hm hpi =>
      rw [process_inputs.eq_def] at hpi
      rcases haux : processInputsAux 0 s.sensor_thresholds s.sensor_calibration
          s.sensor_state raws s.events with _ | ⟨⟨sts', q', trA⟩⟩
      · rw [haux] at hpi
        exact absurd hpi (by simp)
      · rw [haux] at hpi
        simp only [Option.some.injEq, Prod.mk.injEq] at hpi
        obtain ⟨hs1, htr⟩ := hpi
        subst htr
        obtain ⟨_, _, _, _, hHi, hK⟩ :=
          processInputsAux_spec s.sensor_state 0 s.sensor_thresholds
            s.sensor_calibration raws s.events sts' q' trA haux
        by_cases hi : i < s.sensor_state.length
        · obtain ⟨ev, _, htrace⟩ := hK i hi
          rw [Nat.zero_add] at htrace
          rw [htrace]
          cases ev <;> simp
        · rw [hHi i (by omega)]
          simp
    | isr time _ => simp [sensorTrace_nil]
    | request allocOk req _ r _ resp hm hreq => simp [sensorTrace_nil]
    | calibrate raws _ hm => simp [sensorTrace_nil]

/-- Witness for C10: after the run that emits one `SENSOR_FLEXED` on
sensor 0, that sensor's trace alternates from `false` and ends at the
flag `true` the sensor now holds. -/
theorem claim_C10_alternation_witness :
    AltFrom false [EventType.SENSOR_FLEXED] true := by
  have h := (claim_C10_alternation sExRun ([] ++ [Event.sensorFlexed 0])
    (ReachTr.step (ReachTr.init [{ low := 0, high := 1 }])
      (Step.inputs [2] (Sys.init [{ low := 0, high := 1 }]) sExRun
        [Event.sensorFlexed 0] rfl rfl))).1 0 (by decide)
  simpa [sensorTrace, kindOf, sExRun] using h

end StepLemmas

end Commcomm
